import Mathlib

/-!
Verification development for the gcal command-line calendar tool
(repository BobFrankston/gcal).  The definitions below are a shallow
embedding of the parsing and ICS-mapping core of the program:

* `parseDuration`, `parseDateTime` from `glib/gutils.js`;
* `parseTimeLimit`, `parseReminder`, and the per-record mapping loop of
  `importIcsFile` from `gcal.js`.

JavaScript machine details are modelled as follows: JS `Date` values are
records of calendar fields renormalized with the standard civil-calendar
algorithms (the engine stores epoch milliseconds; the field view is
equivalent and the local timezone is taken as UTC, which is sound because
every claim is about a single consistent local zone); regex matching is
hand-compiled to list scanners that are argued match-for-match equivalent
to the source patterns; `process.exit(1)` with a printed message is
modelled as an `Except` error carrying the message and the exit status;
the character classes of `\s` and of `toLowerCase` are modelled on their
ASCII portion, the only portion the claims exercise.
-/

instance {ε α : Type} [DecidableEq ε] [DecidableEq α] : DecidableEq (Except ε α) := fun x y =>
  match x, y with
  | .ok a, .ok b => if h : a = b then isTrue (by rw [h]) else isFalse (by simp [h])
  | .error a, .error b => if h : a = b then isTrue (by rw [h]) else isFalse (by simp [h])
  | .ok _, .error _ => isFalse (by simp)
  | .error _, .ok _ => isFalse (by simp)

/-- Character class of the JavaScript regex `\s` (ASCII portion). -/
def isJsWs (c : Char) : Bool := c = ' ' || c = '\t' || c = '\n' || c = '\r'

/-- Numeric value of a decimal digit character. -/
def digitVal (c : Char) : Nat := c.toNat - 48

/-- Value of a list of decimal digit characters, most significant first. -/
def digitsToNat (ds : List Char) : Nat := ds.foldl (fun n c => n * 10 + digitVal c) 0

/-- Lowercase an ASCII character (model of `String.prototype.toLowerCase`,
whose non-ASCII behavior the program never relies on). -/
def asciiLower (c : Char) : Char :=
  if 'A' ≤ c ∧ c ≤ 'Z' then Char.ofNat (c.toNat + 32) else c

/-- Model of `input.toLowerCase().trim()` from `parseDateTime`. -/
def lowerTrim (s : String) : String :=
  ⟨(((s.data.map asciiLower).dropWhile isJsWs).reverse.dropWhile isJsWs).reverse⟩

/-- First match of the unanchored JS regex `(\d+)<unit>` (flag `i`) in a
character list: the scan looks for the earliest position holding a digit
whose maximal digit run is immediately followed by a unit character, and
returns the value of that run.  This is exactly the leftmost match the JS
engine finds for `/(\d+)h/i` and `/(\d+)m/i` in `parseDuration`
(`glib/gutils.js` lines 173-174). -/
def scanNumUnit (isUnit : Char → Bool) : List Char → Option Nat
  | [] => none
  | c :: rest =>
    if c.isDigit then
      match (c :: rest).dropWhile Char.isDigit with
      | u :: _ =>
        if isUnit u then some (digitsToNat ((c :: rest).takeWhile Char.isDigit))
        else scanNumUnit isUnit rest
      | [] => none
    else scanNumUnit isUnit rest

/-- Unit class of `/(\d+)h/i`. -/
def isHourUnit (c : Char) : Bool := c = 'h' || c = 'H'

/-- Unit class of `/(\d+)m/i`. -/
def isMinUnit (c : Char) : Bool := c = 'm' || c = 'M'

/-- Value of a hexadecimal digit character, if it is one. -/
def hexVal (c : Char) : Option Nat :=
  if c.isDigit then some (digitVal c)
  else if 'a' ≤ c ∧ c ≤ 'f' then some (c.toNat - 87)
  else if 'A' ≤ c ∧ c ≤ 'F' then some (c.toNat - 55)
  else none

/-- Character class of hexadecimal digits. -/
def isHexCh (c : Char) : Bool := (hexVal c).isSome

/-- Value of a list of hexadecimal digit characters. -/
def hexDigitsToNat (ds : List Char) : Nat :=
  ds.foldl (fun n c => n * 16 + (hexVal c).getD 0) 0

/-- Signed value of the leading decimal digit run of a character list;
`none` when there is no leading digit. -/
def decLeadVal (sgn : Int) (cs : List Char) : Option Int :=
  match cs.takeWhile Char.isDigit with
  | [] => none
  | ds => some (sgn * (digitsToNat ds : Int))

/-- Model of JavaScript `parseInt(s)` with no radix argument: skip leading
whitespace, read an optional sign, then either a `0x`/`0X`-prefixed run of
hexadecimal digits or a run of decimal digits; the rest of the string is
ignored.  `none` models the `NaN` result.  (The model is exact-precision;
the program only ever feeds it short numerals.) -/
def jsParseInt (s : String) : Option Int :=
  let cs := s.data.dropWhile isJsWs
  let sgn : Int := match cs with | '-' :: _ => -1 | _ => 1
  let cs1 : List Char := match cs with | '-' :: r => r | '+' :: r => r | _ => cs
  match cs1 with
  | '0' :: x :: r =>
    if x = 'x' ∨ x = 'X' then
      match r.takeWhile isHexCh with
      | [] => none
      | ds => some (sgn * (hexDigitsToNat ds : Int))
    else decLeadVal sgn cs1
  | _ => decLeadVal sgn cs1

/-- Model of `parseDuration` (`glib/gutils.js` lines 171-183).  The JS
accumulates `minutes = 0`, adds `h*60` when `/(\d+)h/i` matches and `m`
when `/(\d+)m/i` matches, and when neither matches sets
`minutes = parseInt(duration) || 60`, where `||` replaces both `NaN` and
`0` by the default 60. -/
def parseDuration (duration : String) : Int :=
  match scanNumUnit isHourUnit duration.data, scanNumUnit isMinUnit duration.data with
  | none, none =>
    match jsParseInt duration with
    | some k => if k = 0 then 60 else k
    | none => 60
  | hm, mm =>
    (match hm with | some h => (h : Int) * 60 | none => 0) +
    (match mm with | some m => (m : Int) | none => 0)

/-- Day number of the first day of month `mo` (0-based) of year `y`,
counted from 1970-01-01 (standard civil-calendar algorithm, the one the
JS engine's `MakeDay` is specified to compute). -/
def monthFloorDays (y mo : Int) : Int :=
  let m1 := mo + 1
  let yAdj := if m1 ≤ 2 then y - 1 else y
  let era := yAdj / 400
  let yoe := yAdj - era * 400
  let mp := if 2 < m1 then m1 - 3 else m1 + 9
  let doy := (153 * mp + 2) / 5
  let doe := yoe * 365 + yoe / 4 - yoe / 100 + doy
  era * 146097 + doe - 719468

/-- Day number of a civil date, counted from 1970-01-01. -/
def daysFromCivil (y mo d : Int) : Int := monthFloorDays y mo + (d - 1)

/-- Civil date (year, 0-based month, day) of a day number counted from
1970-01-01 (inverse civil-calendar algorithm). -/
def civilFromDays (z0 : Int) : Int × Int × Int :=
  let z := z0 + 719468
  let era := z / 146097
  let doe := z - era * 146097
  let yoe := (doe - doe / 1460 + doe / 36524 - doe / 146096) / 365
  let y := yoe + era * 400
  let doy := doe - (365 * yoe + yoe / 4 - yoe / 100)
  let mp := (5 * doy + 2) / 153
  let d := doy - (153 * mp + 2) / 5 + 1
  let m1 := if mp < 10 then mp + 3 else mp - 9
  (if m1 ≤ 2 then y + 1 else y, m1 - 1, d)

/-- Field view of a JS `Date` in the (UTC-pinned) local zone. -/
structure JSDate where
  year : Int
  month : Int
  day : Int
  hour : Int
  minute : Int
  second : Int
  ms : Int
deriving DecidableEq, Repr

/-- Renormalization of a date whose month and day fields may be out of
range, keeping the time of day: this is how every JS `Date` field setter
recomputes the stored time value (month carries into the year, then the
day offset moves along the day axis, rolling months over). -/
def normDate (y mo d h mi s ms : Int) : JSDate :=
  let y1 := y + mo / 12
  let mo1 := mo % 12
  let c := civilFromDays (monthFloorDays y1 mo1 + (d - 1))
  ⟨c.1, c.2.1, c.2.2, h, mi, s, ms⟩

/-- Full renormalization including the time fields (carries propagate
milliseconds up to days, as in the engine's `MakeTime`/`MakeDate`). -/
def normTime (y mo d h mi s ms : Int) : JSDate :=
  let s1 := s + ms / 1000
  let ms1 := ms % 1000
  let mi1 := mi + s1 / 60
  let s2 := s1 % 60
  let h1 := h + mi1 / 60
  let mi2 := mi1 % 60
  let d1 := d + h1 / 24
  let h2 := h1 % 24
  normDate y mo d1 h2 mi2 s2 ms1

/-- Model of `d.setDate(v)`. -/
def jsSetDate (d : JSDate) (v : Int) : JSDate :=
  normDate d.year d.month v d.hour d.minute d.second d.ms

/-- Model of `d.setMonth(v)`. -/
def jsSetMonth (d : JSDate) (v : Int) : JSDate :=
  normDate d.year v d.day d.hour d.minute d.second d.ms

/-- Model of `d.setFullYear(v)`. -/
def jsSetFullYear (d : JSDate) (v : Int) : JSDate :=
  normDate v d.month d.day d.hour d.minute d.second d.ms

/-- Model of `d.setHours(h, mi, s, ms)`. -/
def jsSetHours (d : JSDate) (h mi s ms : Int) : JSDate :=
  normTime d.year d.month d.day h mi s ms

/-- Model of `d.getDay()` (0 = Sunday; 1970-01-01 was a Thursday). -/
def jsGetDay (d : JSDate) : Int :=
  (daysFromCivil d.year d.month d.day + 4) % 7

/-- Model of `new Date(year, month, day, hours, minutes)`: two-digit years
are mapped into 1900-1999 and all fields are renormalized; the seconds and
milliseconds arguments are omitted at every call site, hence 0. -/
def jsMkDate (y mo d h mi : Int) : JSDate :=
  let y1 := if 0 ≤ y ∧ y ≤ 99 then y + 1900 else y
  normTime y1 mo d h mi 0 0

/-- Anchored match of the JS regex `^(\d+)\s*([u₁u₂…]?)$` with flag `i`,
the shape shared by `parseTimeLimit` (units `dwmy`) and `parseReminder`
(units `mhd`): a digit run, optional whitespace, and an optional unit
letter ending the string.  Returns the numeral's value and the lowercased
unit, `dflt` standing for the empty capture (`match[2] || '<dflt>'`). -/
def numUnitMatch (units : List Char) (dflt : Char) (s : String) : Option (Nat × Char) :=
  match s.data.takeWhile Char.isDigit with
  | [] => none
  | ds =>
    match (s.data.dropWhile Char.isDigit).dropWhile isJsWs with
    | [] => some (digitsToNat ds, dflt)
    | [u] => if units.contains (asciiLower u) then some (digitsToNat ds, asciiLower u) else none
    | _ => none

/-- Exact stderr message of `parseTimeLimit`'s usage error (`gcal.js` line 305). -/
def invalidLimitMsg (spec : String) : String :=
  "Invalid time limit: \"" ++ spec ++ "\" — use #d, #w, #m, or #y (e.g. 3m, 90d, 1y)"

/-- Model of `parseTimeLimit` (`gcal.js` lines 302-326).  A failed match of
`/^(\d+)\s*([dwmy]?)$/i` prints the usage message and exits with status 1,
modelled as the `Except` error carrying the message and the status; a
match advances "now" per the unit switch, the missing unit defaulting to
months. -/
def parseTimeLimit (spec : String) (now : JSDate) : Except (String × Nat) JSDate :=
  match numUnitMatch ['d', 'w', 'm', 'y'] 'm' spec with
  | none => .error (invalidLimitMsg spec, 1)
  | some (num, unit) =>
    if unit = 'd' then .ok (jsSetDate now (now.day + (num : Int)))
    else if unit = 'w' then .ok (jsSetDate now (now.day + (num : Int) * 7))
    else if unit = 'y' then .ok (jsSetFullYear now (now.year + (num : Int)))
    else .ok (jsSetMonth now (now.month + (num : Int)))

/-- Match of a literal character sequence, returning the rest of the input. -/
def litMatch : List Char → List Char → Option (List Char)
  | [], cs => some cs
  | _ :: _, [] => none
  | p :: ps, c :: cs => if c = p then litMatch ps cs else none

/-- Match of a single literal character. -/
def chMatch (c : Char) : List Char → Option (List Char)
  | x :: rest => if x = c then some rest else none
  | [] => none

/-- Greedy match of `\s+`. -/
def ws1 : List Char → Option (List Char)
  | c :: rest => if isJsWs c then some (rest.dropWhile isJsWs) else none
  | [] => none

/-- Greedy match of `\s*`. -/
def wsStar (cs : List Char) : List Char := cs.dropWhile isJsWs

/-- Greedy match of `\d{1,max}`, returning the run's value.  In every
source pattern a digit run is followed by a non-digit requirement, so the
greedy scan agrees with the backtracking regex engine. -/
def digitsUpTo (max : Nat) (cs : List Char) : Option (Nat × List Char) :=
  let ds := (cs.takeWhile Char.isDigit).take max
  if ds = [] then none else some (digitsToNat ds, cs.drop ds.length)

/-- Match of exactly `\d{n}`. -/
def digitsExact (n : Nat) (cs : List Char) : Option (Nat × List Char) :=
  let ds := (cs.takeWhile Char.isDigit).take n
  if ds.length = n then some (digitsToNat ds, cs.drop n) else none

/-- Optional prelude `(?:at\s+)?` of the time portion of rules 3-5.  When
`at` is present but not followed by whitespace the group cannot match and
the engine falls back to the unconsumed input, as modelled. -/
def optAt (cs : List Char) : List Char :=
  match litMatch "at".data cs with
  | some r =>
    match ws1 r with
    | some r2 => r2
    | none => cs
  | none => cs

/-- Meridiem (am/pm) indicator. -/
inductive Mer
  | am
  | pm
deriving DecidableEq, Repr

/-- Optional match of `(am|pm)?` (the patterns place it last, so the greedy
choice agrees with the engine). -/
def optMer (cs : List Char) : Option Mer × List Char :=
  match litMatch "am".data cs with
  | some r => (some Mer.am, r)
  | none =>
    match litMatch "pm".data cs with
    | some r => (some Mer.pm, r)
    | none => (none, cs)

/-- Optional match of `(?::(\d{2}))?`. -/
def optColonMin (cs : List Char) : Option Nat × List Char :=
  match cs with
  | ':' :: rest =>
    match digitsExact 2 rest with
    | some (m, r) => (some m, r)
    | none => (none, cs)
  | _ => (none, cs)

/-- Shared tail `(?:at\s+)?(\d{1,2})(?::(\d{2}))?\s*(am|pm)?$` of the
today/tomorrow and weekday rules. -/
def timeTail (cs : List Char) : Option (Nat × Option Nat × Option Mer) :=
  match digitsUpTo 2 (optAt cs) with
  | none => none
  | some (h, r1) =>
    let (mn, r2) := optColonMin r1
    let (mer, r3) := optMer (wsStar r2)
    if r3 = [] then some (h, mn, mer) else none

/-- Captures of the today/tomorrow-with-time rule. -/
structure TodParts where
  tomorrow : Bool
  hour : Nat
  minute : Option Nat
  mer : Option Mer
deriving DecidableEq, Repr

/-- Matcher of rule 3,
`/^(today|tomorrow)\s+(?:at\s+)?(\d{1,2})(?::(\d{2}))?\s*(am|pm)?$/i`,
applied to the lowercased trimmed input (`glib/gutils.js` line 198). -/
def todayTimeMatch (cs : List Char) : Option TodParts :=
  let first : Option (Bool × List Char) :=
    match litMatch "today".data cs with
    | some r => some (false, r)
    | none =>
      match litMatch "tomorrow".data cs with
      | some r => some (true, r)
      | none => none
  match first with
  | none => none
  | some (tom, r0) =>
    match ws1 r0 with
    | none => none
    | some r1 =>
      match timeTail r1 with
      | some (h, mn, mer) => some ⟨tom, h, mn, mer⟩
      | none => none

/-- Weekday names in `getDay` order (`glib/gutils.js` line 213). -/
def weekdayNames : List (List Char) :=
  ["sunday".data, "monday".data, "tuesday".data, "wednesday".data,
   "thursday".data, "friday".data, "saturday".data]

/-- First alternative of an alternation that matches at the head of the
input, with its index.  The weekday and month alternations are pairwise
non-prefix lists, so first-match equals the regex alternation choice. -/
def altMatchFrom (alts : List (List Char)) (i : Nat) (cs : List Char) :
    Option (Nat × List Char) :=
  match alts with
  | [] => none
  | a :: rest =>
    match litMatch a cs with
    | some r => some (i, r)
    | none => altMatchFrom rest (i + 1) cs

/-- Captures of the weekday rule. -/
structure WdParts where
  next : Bool
  wd : Nat
  hour : Nat
  minute : Option Nat
  mer : Option Mer
deriving DecidableEq, Repr

/-- Matcher of rule 4,
`/^(next\s+)?(sunday|…|saturday)\s+(?:at\s+)?(\d{1,2})(?::(\d{2}))?\s*(am|pm)?$/i`
(`glib/gutils.js` line 214).  No weekday name starts with `next`, so the
greedy choice for the optional `next` group is safe. -/
def weekdayMatch (cs : List Char) : Option WdParts :=
  let first : Bool × List Char :=
    match litMatch "next".data cs with
    | some r =>
      match ws1 r with
      | some r2 => (true, r2)
      | none => (false, cs)
    | none => (false, cs)
  match altMatchFrom weekdayNames 0 first.2 with
  | none => none
  | some (wd, r1) =>
    match ws1 r1 with
    | none => none
    | some r2 =>
      match timeTail r2 with
      | some (h, mn, mer) => some ⟨first.1, wd, h, mn, mer⟩
      | none => none

/-- Month three-letter codes in month order (`glib/gutils.js` line 232);
the regex alternation lists the same codes, so the matched index below is
exactly the `findIndex` the source computes. -/
def monthNames : List (List Char) :=
  ["jan".data, "feb".data, "mar".data, "apr".data, "may".data, "jun".data,
   "jul".data, "aug".data, "sep".data, "oct".data, "nov".data, "dec".data]

/-- Captures of the month-name rule. -/
structure MonParts where
  monthIdx : Nat
  day : Nat
  year : Option Nat
  hour : Option Nat
  minute : Option Nat
  mer : Option Mer
deriving DecidableEq, Repr

/-- Character class `[a-z]`. -/
def isLowerAlpha (c : Char) : Bool := 'a' ≤ c && c ≤ 'z'

/-- Optional time group `(?:\s+(?:at\s+)?(\d{1,2})(?::(\d{2}))?\s*(am|pm)?)?$`
closing the month-name rule. -/
def monthTimeTail (cs : List Char) : Option (Option Nat × Option Nat × Option Mer) :=
  if cs = [] then some (none, none, none)
  else
    match ws1 cs with
    | none => none
    | some r1 =>
      match timeTail r1 with
      | some (h, mn, mer) => some (some h, mn, mer)
      | none => none

/-- Matcher of rule 5,
`/^(jan|…|dec)[a-z]*\s+(\d{1,2})(?:\s+(\d{4}))?(?:\s+(?:at\s+)?(\d{1,2})(?::(\d{2}))?\s*(am|pm)?)?$/i`
(`glib/gutils.js` line 233). -/
def monthMatch (cs : List Char) : Option MonParts :=
  match altMatchFrom monthNames 0 cs with
  | none => none
  | some (mi, r0) =>
    match ws1 (r0.dropWhile isLowerAlpha) with
    | none => none
    | some r2 =>
      match digitsUpTo 2 r2 with
      | none => none
      | some (d, r3) =>
        let yearPart : Option Nat × List Char :=
          match ws1 r3 with
          | some ry =>
            match digitsExact 4 ry with
            | some (y, r) => (some y, r)
            | none => (none, r3)
          | none => (none, r3)
        match monthTimeTail yearPart.2 with
        | some (h, mn, mer) => some ⟨mi, d, yearPart.1, h, mn, mer⟩
        | none => none

/-- Captures of the `M/D/YYYY H:MM` rule. -/
structure SlashParts where
  month : Nat
  day : Nat
  year : Nat
  hour : Nat
  minute : Nat
deriving DecidableEq, Repr

/-- Matcher of rule 6, `/^(\d{1,2})\/(\d{1,2})\/(\d{4})\s+(\d{1,2}):(\d{2})$/`
on the raw (untrimmed, case-preserved) input (`glib/gutils.js` line 254). -/
def slashDateMatch (cs : List Char) : Option SlashParts := do
  let (mo, r1) ← digitsUpTo 2 cs
  let r2 ← chMatch '/' r1
  let (d, r3) ← digitsUpTo 2 r2
  let r4 ← chMatch '/' r3
  let (y, r5) ← digitsExact 4 r4
  let r6 ← ws1 r5
  let (h, r7) ← digitsUpTo 2 r6
  let r8 ← chMatch ':' r7
  let (mi, r9) ← digitsExact 2 r8
  if r9 = [] then pure ⟨mo, d, y, h, mi⟩ else none

/-- Captures of the `YYYY-M-D H:MM` rule. -/
structure IsoParts where
  year : Nat
  month : Nat
  day : Nat
  hour : Nat
  minute : Nat
deriving DecidableEq, Repr

/-- Matcher of rule 7, `/^(\d{4})-(\d{1,2})-(\d{1,2})\s+(\d{1,2}):(\d{2})$/`
on the raw input (`glib/gutils.js` line 262). -/
def isoDateMatch (cs : List Char) : Option IsoParts := do
  let (y, r1) ← digitsExact 4 cs
  let r2 ← chMatch '-' r1
  let (mo, r3) ← digitsUpTo 2 r2
  let r4 ← chMatch '-' r3
  let (d, r5) ← digitsUpTo 2 r4
  let r6 ← ws1 r5
  let (h, r7) ← digitsUpTo 2 r6
  let r8 ← chMatch ':' r7
  let (mi, r9) ← digitsExact 2 r8
  if r9 = [] then pure ⟨y, mo, d, h, mi⟩ else none

/-- Captures of the bare `H:MM` rule. -/
structure HmParts where
  hour : Nat
  minute : Nat
deriving DecidableEq, Repr

/-- Matcher of rule 8, `/^(\d{1,2}):(\d{2})$/` on the raw input
(`glib/gutils.js` line 271). -/
def bareTimeMatch (cs : List Char) : Option HmParts := do
  let (h, r1) ← digitsUpTo 2 cs
  let r2 ← chMatch ':' r1
  let (mi, r3) ← digitsExact 2 r2
  if r3 = [] then pure ⟨h, mi⟩ else none

/-- Captures of the bare time-with-meridiem rule. -/
structure AmpmParts where
  hour : Nat
  minute : Option Nat
  mer : Mer
deriving DecidableEq, Repr

/-- Matcher of rule 9, `/^(\d{1,2})(?::(\d{2}))?\s*(am|pm)$/` on the
lowercased trimmed input (`glib/gutils.js` line 279). -/
def ampmMatch (cs : List Char) : Option AmpmParts :=
  match digitsUpTo 2 cs with
  | none => none
  | some (h, r1) =>
    let (mn, r2) := optColonMin r1
    let (mer, r3) := optMer (wsStar r2)
    match mer with
    | some m => if r3 = [] then some ⟨h, mn, m⟩ else none
    | none => none

/-- Shared 12-hour conversion block of `parseDateTime` (`glib/gutils.js`
lines 204-208, 223-227, 239-243, and 282-286): `pm` adds 12 to hours below
12, hour 12 with `am` becomes 0, anything else is unchanged. -/
def convert12 (h : Nat) (mer : Option Mer) : Nat :=
  if mer = some Mer.pm ∧ h < 12 then h + 12
  else if mer = some Mer.am ∧ h = 12 then 0
  else h

/-- Handler of rule 3 (`glib/gutils.js` lines 199-211). -/
def todayTimeEval (now : JSDate) (p : TodParts) : JSDate :=
  let d := if p.tomorrow then jsSetDate now (now.day + 1) else now
  jsSetHours d (convert12 p.hour p.mer) (p.minute.getD 0) 0 0

/-- Handler of rule 4 (`glib/gutils.js` lines 215-229). -/
def weekdayEval (now : JSDate) (p : WdParts) : JSDate :=
  let du0 : Int := (p.wd : Int) - jsGetDay now
  let du := if du0 ≤ 0 ∨ p.next then du0 + 7 else du0
  jsSetHours (jsSetDate now (now.day + du)) (convert12 p.hour p.mer) (p.minute.getD 0) 0 0

/-- Handler of rule 5 (`glib/gutils.js` lines 234-252). -/
def monthEval (now : JSDate) (p : MonParts) : JSDate :=
  let y : Int := match p.year with | some n => (n : Int) | none => now.year
  let d0 := jsMkDate y p.monthIdx p.day 0 0
  match p.hour with
  | some h => jsSetHours d0 (convert12 h p.mer) (p.minute.getD 0) 0 0
  | none => jsSetHours d0 0 0 0 0

/-- Handler of rule 6 (`glib/gutils.js` lines 255-261). -/
def slashEval (p : SlashParts) : JSDate :=
  jsMkDate p.year ((p.month : Int) - 1) p.day p.hour p.minute

/-- Handler of rule 7 (`glib/gutils.js` lines 263-269). -/
def isoEval (p : IsoParts) : JSDate :=
  jsMkDate p.year ((p.month : Int) - 1) p.day p.hour p.minute

/-- Handler of rule 8 (`glib/gutils.js` lines 272-277). -/
def bareTimeEval (now : JSDate) (p : HmParts) : JSDate :=
  jsSetHours now p.hour p.minute 0 0

/-- Handler of rule 9 (`glib/gutils.js` lines 280-290). -/
def ampmEval (now : JSDate) (p : AmpmParts) : JSDate :=
  jsSetHours now (convert12 p.hour (some p.mer)) (p.minute.getD 0) 0 0

/-- Model of `parseDateTime` (`glib/gutils.js` lines 185-297).  The rules
are tried in source order, on the lowercased trimmed copy of the input
(rules 1-5 and 9) or on the raw input (rules 6-8).  The final fallback
`new Date(input)` is the platform's free-form parser, an external
collaborator modelled by the oracle argument `native` (`none` standing for
an Invalid Date result).  The `isNaN` guards after rules 5-7 cannot fire
for any matched input (4-digit years keep the value in `Date` range), so
they are elided.  A failed parse throws `Cannot parse date/time: <input>`,
modelled as the `Except` error. -/
def parseDateTime (native : String → Option JSDate) (now : JSDate) (input : String) :
    Except String JSDate :=
  let lower := lowerTrim input
  if lower = "today" then .ok now
  else if lower = "tomorrow" then .ok (jsSetDate now (now.day + 1))
  else
    match todayTimeMatch lower.data with
    | some p => .ok (todayTimeEval now p)
    | none =>
      match weekdayMatch lower.data with
      | some p => .ok (weekdayEval now p)
      | none =>
        match monthMatch lower.data with
        | some p => .ok (monthEval now p)
        | none =>
          match slashDateMatch input.data with
          | some p => .ok (slashEval p)
          | none =>
            match isoDateMatch input.data with
            | some p => .ok (isoEval p)
            | none =>
              match bareTimeMatch input.data with
              | some p => .ok (bareTimeEval now p)
              | none =>
                match ampmMatch lower.data with
                | some p => .ok (ampmEval now p)
                | none =>
                  match native input with
                  | some d => .ok d
                  | none => .error ("Cannot parse date/time: " ++ input)

/-- Exact stderr message of `parseReminder`'s usage error (`gcal.js` line 282). -/
def invalidReminderMsg (spec : String) : String :=
  "Invalid reminder: \"" ++ spec ++ "\" — use #m, #h, or #d (e.g. 30m, 1h, 2d)"

/-- Reminder delivery method. -/
inductive RMethod
  | popup
  | email
deriving DecidableEq, Repr

/-- Structured reminder entry, as built by `parseReminder`. -/
structure Reminder where
  method : RMethod
  minutes : Nat
deriving DecidableEq, Repr

/-- Model of JS `String.prototype.split(':')` on the character list. -/
def splitColon : List Char → List (List Char)
  | [] => [[]]
  | c :: rest =>
    if c = ':' then [] :: splitColon rest
    else
      match splitColon rest with
      | [] => [[c]]
      | p :: ps => (c :: p) :: ps

/-- Unit conversion switch of `parseReminder` (`gcal.js` lines 288-298). -/
def remMinutes (n : Nat) (u : Char) : Nat :=
  if u = 'h' then n * 60 else if u = 'd' then n * 60 * 24 else n

/-- Google Calendar API `EventDateTime` value, as built by the importer:
exactly one of `date` (all-day) or `dateTime`+`timeZone` (timed) is filled
in by the mapping code, starting from the empty object `{}`. -/
structure EventDateTime where
  date : Option String
  dateTime : Option String
  timeZone : Option String
deriving DecidableEq, Repr

/-- Attendee entry of the Google event representation. -/
structure GAttendee where
  email : String
  displayName : Option String
deriving DecidableEq, Repr

/-- Google event representation, restricted to the fields the importer
writes (`gcal.js` lines 132-172). -/
structure GoogleEvent where
  summary : String
  description : Option String
  location : Option String
  start : EventDateTime
  end_ : EventDateTime
  attendees : Option (List GAttendee)
  recurrence : Option (List String)
deriving DecidableEq, Repr

/-- Time value delivered by the external interchange parser (`ICAL.Time`):
a date-or-datetime flag, the instant as a JS date (`toJSDate()`, local
zone pinned to UTC), and the optional named source zone (`zone?.tzid`,
whose absence at either level is one `Option`). -/
structure ICalTime where
  isDate : Bool
  time : JSDate
  tzid : Option String
deriving DecidableEq, Repr

/-- CN ("common name") parameter of an attendee property:
`att.getParameter('cn')` yields nothing, one string, or an array. -/
inductive CnParam
  | absent
  | one (s : String)
  | many (l : List String)
deriving DecidableEq, Repr

/-- Attendee property of an interchange record.  `value` models
`att.getFirstValue()`; `none` models a null/undefined value (which the
source turns into the empty string).  Values of non-string object type,
which the source stringifies without the mailto handling, do not occur for
attendee properties and are not modelled. -/
structure VAttendee where
  value : Option String
  cn : CnParam
deriving DecidableEq, Repr

/-- Interchange (ICS) event record as seen through the external parser's
accessors.  `summary` backs both `event.summary` and
`vevent.getFirstPropertyValue('summary')`, which read the same SUMMARY
property; `rrule` is the string form of the recurrence value.  `broken`
models a record on which the external parser's accessors throw while the
record is being mapped, carrying the thrown message (the source wraps the
whole per-record body in try/catch). -/
structure VEvent where
  summary : Option String
  description : Option String
  location : Option String
  startDate : Option ICalTime
  endDate : Option ICalTime
  attendees : List VAttendee
  rrule : Option String
  broken : Option String
deriving DecidableEq, Repr

/-- Decimal numeral of `n` left-padded with zeros to `width` digits. -/
def padNum (width : Nat) (n : Nat) : String :=
  let s := toString n
  ⟨List.replicate (width - s.length) '0'⟩ ++ s

/-- Date portion of `toJSDate().toISOString()` — what the importer stores
after `.split('T')[0]` for all-day values.  (Year range 0-9999, the only
range reachable from calendar data.) -/
def isoDateStr (d : JSDate) : String :=
  padNum 4 d.year.toNat ++ "-" ++ padNum 2 (d.month + 1).toNat ++ "-" ++ padNum 2 d.day.toNat

/-- Model of `toJSDate().toISOString()` with the local zone pinned to UTC. -/
def isoFullStr (d : JSDate) : String :=
  isoDateStr d ++ "T" ++ padNum 2 d.hour.toNat ++ ":" ++ padNum 2 d.minute.toNat ++ ":" ++
    padNum 2 d.second.toNat ++ "." ++ padNum 3 d.ms.toNat ++ "Z"

/-- Model of the JS truthiness default `x || dflt` on an optional string. -/
def orElseStr (o : Option String) (dflt : String) : String :=
  match o with
  | some s => if s = "" then dflt else s
  | none => dflt

/-- Model of `x || undefined`: empty strings and absent values are omitted. -/
def orUndef (o : Option String) : Option String :=
  match o with
  | some s => if s = "" then none else some s
  | none => none

/-- Timezone defaulting `startDate.zone?.tzid || localTz` (`gcal.js`
lines 146 and 156), `localZone` being the system zone from
`Intl.DateTimeFormat().resolvedOptions().timeZone`. -/
def tzidOr (t : Option String) (localZone : String) : String :=
  match t with
  | some s => if s = "" then localZone else s
  | none => localZone

/-- Model of JS `String.prototype.replace` with a plain-string pattern and
empty replacement: only the first occurrence of the pattern, anywhere in
the string, is removed. -/
def removeFirst (pat : List Char) : List Char → List Char
  | [] => []
  | c :: rest =>
    if pat.isPrefixOf (c :: rest) then (c :: rest).drop pat.length
    else c :: removeFirst pat rest

/-- Occurrence test backing the statements about `removeFirst`. -/
def hasSub (pat : List Char) : List Char → Bool
  | [] => pat.isEmpty
  | c :: rest => pat.isPrefixOf (c :: rest) || hasSub pat rest

/-- Attendee mapping of the importer (`gcal.js` lines 161-167): the email
is the attendee value with `'mailto:'` removed by `replace`, the display
name is the CN parameter (first entry when it is an array), omitted when
falsy. -/
def mapAttendee (a : VAttendee) : GAttendee :=
  let email : String :=
    match a.value with
    | some s => ⟨removeFirst "mailto:".data s.data⟩
    | none => ""
  let dn : Option String :=
    match a.cn with
    | .absent => none
    | .one s => some s
    | .many l => l.head?
  ⟨email, orUndef dn⟩

/-- Record-to-event mapping of the import loop (`gcal.js` lines 131-172):
summary defaults to `Untitled Event`, empty/absent description and
location are omitted, each of start/end is emitted in the all-day form
(date only) when its own `isDate` flag is set and in the timed form
(instant plus zone) otherwise, attendees are mapped when present, and a
recurrence value is wrapped as a one-element `RRULE:` list. -/
def mapVevent (localZone : String) (v : VEvent) : GoogleEvent :=
  let side : Option ICalTime → EventDateTime := fun o =>
    match o with
    | none => ⟨none, none, none⟩
    | some t =>
      if t.isDate then ⟨some (isoDateStr t.time), none, none⟩
      else ⟨none, some (isoFullStr t.time), some (tzidOr t.tzid localZone)⟩
  { summary := orElseStr v.summary "Untitled Event"
    description := orUndef v.description
    location := orUndef v.location
    start := side v.startDate
    end_ := side v.endDate
    attendees := if 0 < v.attendees.length then some (v.attendees.map mapAttendee) else none
    recurrence := v.rrule.map (fun r => ["RRULE:" ++ r]) }

/-- Error-branch key of the import loop:
`vevent.getFirstPropertyValue('summary') || 'unknown'` (`gcal.js` line 178). -/
def summaryKey (v : VEvent) : String := orElseStr v.summary "unknown"

/-- Body of one iteration of the import loop: mapping (which throws on a
`broken` record) followed by the remote create call, the latter being the
external service collaborator modelled by the oracle `create` whose error
value is the thrown message. -/
def recordStep (localZone : String) (create : GoogleEvent → Except String Unit)
    (v : VEvent) : Except String GoogleEvent :=
  match v.broken with
  | some msg => .error msg
  | none =>
    let g := mapVevent localZone v
    match create g with
    | .ok _ => .ok g
    | .error msg => .error msg

/-- Aggregated result object of `importIcsFile` (`gcal.js` line 122). -/
structure ImportResult where
  imported : Nat
  errors : List String
deriving DecidableEq, Repr

/-- Model of the per-record loop of `importIcsFile` (`gcal.js` lines
129-182): records are processed strictly in order, each to completion; a
failing record contributes the error string `<summary or unknown>:
<message>` and the loop continues.  The second component collects the
events for which the create call succeeded, in order. -/
def runImport (localZone : String) (create : GoogleEvent → Except String Unit) :
    List VEvent → ImportResult × List GoogleEvent
  | [] => (⟨0, []⟩, [])
  | v :: rest =>
    let acc := runImport localZone create rest
    match recordStep localZone create v with
    | .ok g => (⟨acc.1.imported + 1, acc.1.errors⟩, g :: acc.2)
    | .error e => (⟨acc.1.imported, (summaryKey v ++ ": " ++ e) :: acc.1.errors⟩, acc.2)

/-- Model of `importIcsFile` around the loop: a throw from the external
interchange parser itself is caught by the outer try/catch and recorded as
a single `Parse error:` entry (`gcal.js` lines 184-186). -/
def importRun (localZone : String) (create : GoogleEvent → Except String Unit)
    (parsed : Except String (List VEvent)) : ImportResult × List GoogleEvent :=
  match parsed with
  | .error e => (⟨0, ["Parse error: " ++ e]⟩, [])
  | .ok vs => runImport localZone create vs

/-- Claim-side form predicate, following the spec's data model: the all-day
TimePoint form is a calendar date only, with no time or timezone. -/
def allDayForm (e : EventDateTime) : Prop :=
  e.date.isSome ∧ e.dateTime = none ∧ e.timeZone = none

/-- Claim-side form predicate: the timed form is an instant plus timezone. -/
def timedForm (e : EventDateTime) : Prop :=
  e.dateTime.isSome ∧ e.timeZone.isSome ∧ e.date = none

/-- Claim C1's invariant as stated: start and end are in the same form. -/
def sameForm (s e : EventDateTime) : Prop :=
  (allDayForm s ∧ allDayForm e) ∨ (timedForm s ∧ timedForm e)

instance (e : EventDateTime) : Decidable (allDayForm e) :=
  inferInstanceAs (Decidable (e.date.isSome ∧ e.dateTime = none ∧ e.timeZone = none))

instance (e : EventDateTime) : Decidable (timedForm e) :=
  inferInstanceAs (Decidable (e.dateTime.isSome ∧ e.timeZone.isSome ∧ e.date = none))

instance (s e : EventDateTime) : Decidable (sameForm s e) :=
  inferInstanceAs (Decidable ((allDayForm s ∧ allDayForm e) ∨ (timedForm s ∧ timedForm e)))

/-- Model of `parseReminder` (`gcal.js` lines 276-300): the spec is split on
`:`; the part after the first colon makes the method `email` exactly when
it equals `"email"` (anything else, including absence, is `popup`); the
part before it must match `/^(\d+)\s*([mhd]?)$/i` or the command exits
with status 1 and the usage message. -/
def parseReminder (spec : String) : Except (String × Nat) Reminder :=
  let parts := splitColon spec.data
  let method := if parts[1]? = some "email".data then RMethod.email else RMethod.popup
  match numUnitMatch ['m', 'h', 'd'] 'm' ⟨parts.headD []⟩ with
  | none => .error (invalidReminderMsg spec, 1)
  | some (num, unit) => .ok ⟨method, remMinutes num unit⟩

/-- Claim-side reading of C2's fallback clause: the whole string parsed as
a bare (optionally signed) integer. -/
def wholeIntOf (s : String) : Option Int :=
  match s.data with
  | '-' :: ds =>
    if ds ≠ [] ∧ ds.all Char.isDigit then some (-(digitsToNat ds : Int)) else none
  | ds =>
    if ds ≠ [] ∧ ds.all Char.isDigit then some ((digitsToNat ds : Int)) else none

/-- Value claim C2 predicts for `parseDuration`: the sum of the matched
hour/minute terms, else the whole-string integer, else the default 60. -/
def claimC2Expected (s : String) : Int :=
  match scanNumUnit isHourUnit s.data, scanNumUnit isMinUnit s.data with
  | none, none => (wholeIntOf s).getD 60
  | h, m => 60 * ((h.getD 0 : Nat) : Int) + ((m.getD 0 : Nat) : Int)

/-- Claim C2 fails at the input `"0"`: neither pattern is present and the
whole string parses as the integer 0, so the claim demands the result 0,
but the source's `parseInt(duration) || 60` treats the parsed 0 as falsy
and yields the default 60. -/
theorem c2_counterexample :
    parseDuration "0" ≠ claimC2Expected "0" ∧
    parseDuration "0" = 60 ∧ claimC2Expected "0" = 0 := by decide

/-- Claim C2 as amended: `parseDuration` returns `60*h + m` when the
`<digits>h` / `<digits>m` patterns are present (an absent term counting
as 0); when neither is present it returns the leading-integer JS parse of
the string, except that a failed parse or a parsed value of 0 yields the
default 60; in particular `parseDuration "1h30m" = 90`,
`parseDuration "45m" = 45`, `parseDuration "bogus" = 60`, and
`parseDuration "0" = 60`. -/
theorem c2_parseDuration_characterization (s : String) :
    (∀ h m : Nat, scanNumUnit isHourUnit s.data = some h →
        scanNumUnit isMinUnit s.data = some m →
        parseDuration s = 60 * (h : Int) + (m : Int)) ∧
    (∀ h : Nat, scanNumUnit isHourUnit s.data = some h →
        scanNumUnit isMinUnit s.data = none →
        parseDuration s = 60 * (h : Int)) ∧
    (∀ m : Nat, scanNumUnit isHourUnit s.data = none →
        scanNumUnit isMinUnit s.data = some m →
        parseDuration s = (m : Int)) ∧
    (scanNumUnit isHourUnit s.data = none → scanNumUnit isMinUnit s.data = none →
        parseDuration s =
          match jsParseInt s with
          | some k => if k = 0 then 60 else k
          | none => 60) ∧
    parseDuration "1h30m" = 90 ∧ parseDuration "45m" = 45 ∧
    parseDuration "bogus" = 60 ∧ parseDuration "0" = 60 := by
  refine ⟨?_, ?_, ?_, ?_, by decide, by decide, by decide, by decide⟩
  · intro h m hh hm
    simp only [parseDuration, hh, hm]
    ring
  · intro h hh hm
    simp only [parseDuration, hh, hm]
    ring
  · intro m hh hm
    simp only [parseDuration, hh, hm]
    ring
  · intro hh hm
    simp only [parseDuration, hh, hm]

/-- Concrete instantiation of the amended C2 characterization. -/
theorem c2_witness : parseDuration "2h5m" = 60 * ((2 : Nat) : Int) + ((5 : Nat) : Int) :=
  (c2_parseDuration_characterization "2h5m").1 2 5 (by decide) (by decide)

/-- Claim C4: `parseTimeLimit` terminates the command as a fatal usage
error with status 1 and the exact quoted message exactly when the input
fails the `^(\d+)\s*([dwmy]?)$` grammar; a matching input returns a value
without erroring. -/
theorem c4_parseTimeLimit_fatal_iff :
    (∀ s now, parseTimeLimit s now = .error (invalidLimitMsg s, 1) ↔
        numUnitMatch ['d', 'w', 'm', 'y'] 'm' s = none) ∧
    (∀ s now n u, numUnitMatch ['d', 'w', 'm', 'y'] 'm' s = some (n, u) →
        ∃ d, parseTimeLimit s now = .ok d) ∧
    (∀ s, invalidLimitMsg s =
        "Invalid time limit: \"" ++ s ++ "\" — use #d, #w, #m, or #y (e.g. 3m, 90d, 1y)") := by
  refine ⟨?_, ?_, fun s => rfl⟩
  · intro s now
    cases h : numUnitMatch ['d', 'w', 'm', 'y'] 'm' s with
    | none => simp [parseTimeLimit, h]
    | some p =>
      obtain ⟨n, u⟩ := p
      simp only [parseTimeLimit, h, reduceCtorEq, iff_false]
      split_ifs <;> simp
  · intro s now n u h
    simp only [parseTimeLimit, h]
    split_ifs <;> exact ⟨_, rfl⟩

/-- Concrete instantiation of C4's match side. -/
theorem c4_witness :
    ∃ d, parseTimeLimit "2w" ⟨2026, 0, 31, 12, 0, 0, 0⟩ = .ok d :=
  c4_parseTimeLimit_fatal_iff.2.1 "2w" ⟨2026, 0, 31, 12, 0, 0, 0⟩ 2 'w' (by decide)

/-- Canonical range condition on the month field of a JS date (every real
`Date` satisfies it, the stored value being an instant). -/
def monthInRange (d : JSDate) : Prop := 0 ≤ d.month ∧ d.month < 12

instance (d : JSDate) : Decidable (monthInRange d) :=
  inferInstanceAs (Decidable (0 ≤ d.month ∧ d.month < 12))

/-- Spec-side day arithmetic: the same instant moved exactly `n` days
along the day axis, keeping the time of day. -/
def specAddDays (d : JSDate) (n : Int) : JSDate :=
  let c := civilFromDays (daysFromCivil d.year d.month d.day + n)
  ⟨c.1, c.2.1, c.2.2, d.hour, d.minute, d.second, d.ms⟩

theorem jsSetDate_as_addDays (d : JSDate) (k : Int) (hm : monthInRange d) :
    jsSetDate d (d.day + k) = specAddDays d k := by
  obtain ⟨h0, h1⟩ := hm
  have hdv : d.month / 12 = 0 := Int.ediv_eq_zero_of_lt h0 h1
  have hmd : d.month % 12 = d.month := Int.emod_eq_of_lt h0 h1
  have harg : monthFloorDays d.year d.month + (d.day + k - 1) =
      monthFloorDays d.year d.month + (d.day - 1) + k := by ring
  simp only [jsSetDate, specAddDays, normDate, daysFromCivil, hdv, hmd, Int.add_zero, harg]

/-- Claim C5: for every input matching the grammar, `parseTimeLimit`
advances "now" by N days for unit `d`, N×7 days for `w`, N years for `y`
(per `setFullYear` calendar semantics), and N calendar months for `m` or a
missing unit (per `setMonth` calendar arithmetic, day-of-month rolling
over); in particular `parseTimeLimit "2w"` is now + 14 days exactly and
`parseTimeLimit "3m"` is now advanced by 3 calendar months. -/
theorem c5_parseTimeLimit_advance :
    (∀ s now n u, monthInRange now →
        numUnitMatch ['d', 'w', 'm', 'y'] 'm' s = some (n, u) →
        parseTimeLimit s now = .ok (
          if u = 'd' then specAddDays now (n : Int)
          else if u = 'w' then specAddDays now ((n : Int) * 7)
          else if u = 'y' then jsSetFullYear now (now.year + (n : Int))
          else jsSetMonth now (now.month + (n : Int)))) ∧
    (∀ now, monthInRange now →
        parseTimeLimit "2w" now = .ok (specAddDays now 14) ∧
        parseTimeLimit "3m" now = .ok (jsSetMonth now (now.month + 3))) := by
  have main : ∀ s now n u, monthInRange now →
      numUnitMatch ['d', 'w', 'm', 'y'] 'm' s = some (n, u) →
      parseTimeLimit s now = .ok (
        if u = 'd' then specAddDays now (n : Int)
        else if u = 'w' then specAddDays now ((n : Int) * 7)
        else if u = 'y' then jsSetFullYear now (now.year + (n : Int))
        else jsSetMonth now (now.month + (n : Int))) := by
    intro s now n u hm h
    simp only [parseTimeLimit, h]
    split_ifs
    · rw [jsSetDate_as_addDays now (n : Int) hm]
    · rw [jsSetDate_as_addDays now ((n : Int) * 7) hm]
    · rfl
    · rfl
  refine ⟨main, fun now hm => ⟨?_, ?_⟩⟩
  · have h2 := main "2w" now 2 'w' hm (by decide)
    rw [if_neg (by decide), if_pos rfl] at h2
    have hc : ((2 : Nat) : Int) * 7 = 14 := by norm_num
    rw [hc] at h2
    exact h2
  · have h3 := main "3m" now 3 'm' hm (by decide)
    rw [if_neg (by decide), if_neg (by decide), if_neg (by decide)] at h3
    have hc : ((3 : Nat) : Int) = 3 := by norm_num
    rw [hc] at h3
    exact h3

/-- Concrete instantiation of C5 at a rollover-prone date (Jan 31). -/
theorem c5_witness :
    parseTimeLimit "2w" ⟨2026, 0, 31, 12, 0, 0, 0⟩ =
      .ok (specAddDays ⟨2026, 0, 31, 12, 0, 0, 0⟩ 14) :=
  (c5_parseTimeLimit_advance.2 ⟨2026, 0, 31, 12, 0, 0, 0⟩ (by decide)).1

/-- Claim C6: for every reminder part built of digits, an optional unit
letter, and an optional `:method` suffix, `parseReminder` multiplies by 60
for `h`, by 1440 for `d`, by 1 for `m` or a missing unit, and delivers by
email exactly when the suffix is exactly `email`, popup otherwise;
`parseReminder "30m"`, `"1h:email"`, `"2d"` give popup 30, email 60, and
popup 2880. -/
theorem c6_parseReminder_characterization :
    (∀ (spec : String) (tp : List Char) (n : Nat) (u : Char),
        splitColon spec.data = [tp] →
        numUnitMatch ['m', 'h', 'd'] 'm' ⟨tp⟩ = some (n, u) →
        parseReminder spec = .ok ⟨RMethod.popup, remMinutes n u⟩) ∧
    (∀ (spec : String) (tp mp : List Char) (n : Nat) (u : Char),
        splitColon spec.data = [tp, mp] →
        numUnitMatch ['m', 'h', 'd'] 'm' ⟨tp⟩ = some (n, u) →
        parseReminder spec =
          .ok ⟨if mp = "email".data then RMethod.email else RMethod.popup, remMinutes n u⟩) ∧
    (∀ n : Nat, remMinutes n 'h' = n * 60 ∧ remMinutes n 'd' = n * 1440 ∧ remMinutes n 'm' = n) ∧
    parseReminder "30m" = .ok ⟨RMethod.popup, 30⟩ ∧
    parseReminder "1h:email" = .ok ⟨RMethod.email, 60⟩ ∧
    parseReminder "2d" = .ok ⟨RMethod.popup, 2880⟩ := by
  refine ⟨?_, ?_, ?_, by decide, by decide, by decide⟩
  · intro spec tp n u hsplit hnum
    simp only [parseReminder, hsplit, hnum, List.headD]
    simp
  · intro spec tp mp n u hsplit hnum
    simp only [parseReminder, hsplit, hnum, List.headD]
    rcases eq_or_ne mp "email".data with h | h <;> simp [h]
  · intro n
    refine ⟨rfl, ?_, rfl⟩
    unfold remMinutes
    rw [if_neg (by decide), if_pos rfl]
    ring

/-- Concrete instantiation of C6's two-part grammar. -/
theorem c6_witness :
    parseReminder "1h:email" =
      .ok ⟨if "email".data = "email".data then RMethod.email else RMethod.popup,
           remMinutes 1 'h'⟩ :=
  c6_parseReminder_characterization.2.1 "1h:email" "1h".data "email".data 1 'h'
    (by decide) (by decide)

/-- Concrete malformed interchange record whose start is a date-only value
while its end is a timed value (possible in hand-written or corrupted ICS
data; RFC-compliant records use one form for both). -/
def mixedVevent : VEvent :=
  ⟨some "Mixed", none, none,
   some ⟨true, ⟨2026, 0, 15, 0, 0, 0, 0⟩, none⟩,
   some ⟨false, ⟨2026, 0, 15, 10, 0, 0, 0⟩, some "America/New_York"⟩,
   [], none, none⟩

/-- Claim C1 fails as stated: the import mapper decides the form of start
and of end from each side's own date-only flag independently, so a record
marking its start date-only but its end timed maps to a mixed event. -/
theorem c1_counterexample :
    ¬ sameForm (mapVevent "UTC" mixedVevent).start (mapVevent "UTC" mixedVevent).end_ ∧
    allDayForm (mapVevent "UTC" mixedVevent).start ∧
    timedForm (mapVevent "UTC" mixedVevent).end_ := by decide

/-- Claim C1 as amended: each side of the mapped event is in the all-day
form exactly when that side of the interchange record is marked date-only;
consequently, whenever the record's start and end are both present and
agree on the date-only flag (as they do in every well-formed interchange
record), the resulting event's start and end are in the same form. -/
theorem c1_sameForm_of_agreeing (z : String) (v : VEvent) (ts te : ICalTime)
    (hs : v.startDate = some ts) (he : v.endDate = some te)
    (hag : ts.isDate = te.isDate) :
    sameForm (mapVevent z v).start (mapVevent z v).end_ := by
  cases hd : ts.isDate with
  | false =>
    rw [hd] at hag
    simp only [mapVevent, hs, he, hd, ← hag]
    simp [sameForm, timedForm, allDayForm]
  | true =>
    rw [hd] at hag
    simp only [mapVevent, hs, he, hd, ← hag]
    simp [sameForm, timedForm, allDayForm]

/-- Concrete agreeing (all-day) record for the amended C1. -/
def agreeVevent : VEvent :=
  ⟨some "Holiday", none, none,
   some ⟨true, ⟨2026, 6, 4, 0, 0, 0, 0⟩, none⟩,
   some ⟨true, ⟨2026, 6, 5, 0, 0, 0, 0⟩, none⟩,
   [], none, none⟩

/-- Concrete instantiation of the amended C1. -/
theorem c1_witness :
    sameForm (mapVevent "UTC" agreeVevent).start (mapVevent "UTC" agreeVevent).end_ :=
  c1_sameForm_of_agreeing "UTC" agreeVevent _ _ rfl rfl rfl

/-- Claim-side email rule of C7: the attendee value with a `mailto:`
scheme prefix (and only a prefix) stripped. -/
def specEmailOf (s : String) : String :=
  if "mailto:".data.isPrefixOf s.data then ⟨s.data.drop 7⟩ else s

/-- Claim C7 fails as stated: `replace('mailto:', '')` removes the first
occurrence of `mailto:` anywhere in the value, not only a scheme prefix,
so a value with an interior `mailto:` is altered where prefix-stripping
would leave it unchanged. -/
theorem c7_counterexample :
    (mapAttendee ⟨some "xmailto:a@b.c", CnParam.absent⟩).email = "xa@b.c" ∧
    specEmailOf "xmailto:a@b.c" = "xmailto:a@b.c" ∧
    ("xa@b.c" : String) ≠ "xmailto:a@b.c" := by decide

theorem isPrefixOf_append_self (p t : List Char) : p.isPrefixOf (p ++ t) = true :=
  List.isPrefixOf_iff_prefix.mpr (List.prefix_append p t)

theorem removeFirst_append (pat t : List Char) (h : pat ≠ []) :
    removeFirst pat (pat ++ t) = t := by
  cases pat with
  | nil => exact absurd rfl h
  | cons p ps =>
    have h1 : (p :: ps).isPrefixOf (p :: (ps ++ t)) = true := by
      simp only [← List.cons_append]
      exact isPrefixOf_append_self (p :: ps) t
    unfold removeFirst
    simp only [List.cons_append, h1, if_true, List.length_cons, List.drop_succ_cons]
    exact List.drop_left ps t

theorem removeFirst_of_no_occurrence (pat : List Char) :
    ∀ cs, hasSub pat cs = false → removeFirst pat cs = cs := by
  intro cs
  induction cs with
  | nil => intro _; rfl
  | cons c rest ih =>
    intro h
    unfold hasSub at h
    rw [Bool.or_eq_false_iff] at h
    unfold removeFirst
    simp only [h.1, Bool.false_eq_true, if_false, ih h.2]

/-- Claim C7 as amended: the emitted email is the attendee value with the
first occurrence of `mailto:` removed — in particular a `mailto:` scheme
prefix is stripped, and a value with no occurrence passes through
unchanged — and the display name is the common-name parameter (first
entry when it is multi-valued), omitted when the parameter is absent,
empty, or an empty list. -/
theorem c7_attendee_mapping :
    (∀ (a : VAttendee) (s : String) (t : List Char), a.value = some s →
        s.data = "mailto:".data ++ t → (mapAttendee a).email = ⟨t⟩) ∧
    (∀ (a : VAttendee) (s : String), a.value = some s →
        hasSub "mailto:".data s.data = false → (mapAttendee a).email = s) ∧
    (∀ (a : VAttendee) (s : String), a.value = some s →
        (mapAttendee a).email = ⟨removeFirst "mailto:".data s.data⟩) ∧
    (∀ a : VAttendee, a.cn = CnParam.absent → (mapAttendee a).displayName = none) ∧
    (∀ (a : VAttendee) (s : String), a.cn = CnParam.one s →
        (mapAttendee a).displayName = if s = "" then none else some s) ∧
    (∀ (a : VAttendee) (s : String) (l : List String), a.cn = CnParam.many (s :: l) →
        (mapAttendee a).displayName = if s = "" then none else some s) ∧
    (∀ a : VAttendee, a.cn = CnParam.many [] → (mapAttendee a).displayName = none) := by
  refine ⟨?_, ?_, ?_, ?_, ?_, ?_, ?_⟩
  · intro a s t hv hst
    simp only [mapAttendee, hv]
    rw [hst, removeFirst_append _ _ (by decide)]
  · intro a s hv hno
    simp only [mapAttendee, hv]
    rw [removeFirst_of_no_occurrence _ _ hno]
  · intro a s hv
    simp only [mapAttendee, hv]
  · intro a h
    simp [mapAttendee, h, orUndef]
  · intro a s h
    simp only [mapAttendee, h]
    rfl
  · intro a s l h
    simp only [mapAttendee, h]
    rfl
  · intro a h
    simp [mapAttendee, h, orUndef]

/-- Concrete instantiation of the amended C7 on a prefixed value. -/
theorem c7_witness :
    (mapAttendee ⟨some "mailto:bob@example.com", CnParam.absent⟩).email =
      ⟨"bob@example.com".data⟩ :=
  c7_attendee_mapping.1 ⟨some "mailto:bob@example.com", CnParam.absent⟩
    "mailto:bob@example.com" "bob@example.com".data rfl (by decide)

theorem runImport_all_ok (z : String) (create : GoogleEvent → Except String Unit)
    (l : List VEvent) (h : ∀ r ∈ l, ∃ g, recordStep z create r = .ok g) :
    runImport z create l =
      (⟨l.length, []⟩, l.filterMap fun r => (recordStep z create r).toOption) := by
  induction l with
  | nil => rfl
  | cons v rest ih =>
    obtain ⟨g, hg⟩ := h v (List.mem_cons_self v rest)
    have hrest := ih fun r hr => h r (List.mem_cons_of_mem v hr)
    simp [runImport, hrest, hg, List.filterMap_cons, Except.toOption]

theorem runImport_append_ok (z : String) (create : GoogleEvent → Except String Unit)
    (l1 l2 : List VEvent) (h : ∀ r ∈ l1, ∃ g, recordStep z create r = .ok g) :
    (runImport z create (l1 ++ l2)).1.imported
        = l1.length + (runImport z create l2).1.imported ∧
    (runImport z create (l1 ++ l2)).1.errors = (runImport z create l2).1.errors ∧
    (runImport z create (l1 ++ l2)).2
        = (l1.filterMap fun r => (recordStep z create r).toOption)
            ++ (runImport z create l2).2 := by
  induction l1 with
  | nil => simp
  | cons p ps ih =>
    obtain ⟨g, hg⟩ := h p (List.mem_cons_self p ps)
    obtain ⟨i1, i2, i3⟩ := ih fun r hr => h r (List.mem_cons_of_mem p hr)
    refine ⟨?_, ?_, ?_⟩
    · simp only [List.cons_append, runImport, List.append_eq, hg, i1, List.length_cons]
      omega
    · simp only [List.cons_append, runImport, List.append_eq, hg, i2]
    · simp only [List.cons_append, runImport, List.append_eq, hg, i3,
        List.filterMap_cons, Except.toOption]

/-- Claim C8: one failing record in a batch (whether its mapping throws or
its remote create call fails) does not abort the batch — its error is
recorded as `<summary or "unknown">: <message>`, every other record is
still created in order, and the aggregate shows `imported = N-1` with that
single error string. -/
theorem c8_import_isolation (z : String) (create : GoogleEvent → Except String Unit)
    (pre post : List VEvent) (v : VEvent) (e : String)
    (hpre : ∀ r ∈ pre, ∃ g, recordStep z create r = .ok g)
    (hpost : ∀ r ∈ post, ∃ g, recordStep z create r = .ok g)
    (hv : recordStep z create v = .error e) :
    (runImport z create (pre ++ v :: post)).1.imported + 1 = (pre ++ v :: post).length ∧
    (runImport z create (pre ++ v :: post)).1.errors = [summaryKey v ++ ": " ++ e] ∧
    (runImport z create (pre ++ v :: post)).2
        = (pre ++ post).filterMap fun r => (recordStep z create r).toOption := by
  have hpost' := runImport_all_ok z create post hpost
  obtain ⟨i1, i2, i3⟩ := runImport_append_ok z create pre (v :: post) hpre
  have hmid1 : (runImport z create (v :: post)).1.imported = post.length := by
    simp [runImport, hv, hpost']
  have hmid2 : (runImport z create (v :: post)).1.errors = [summaryKey v ++ ": " ++ e] := by
    simp [runImport, hv, hpost']
  have hmid3 : (runImport z create (v :: post)).2
      = post.filterMap fun r => (recordStep z create r).toOption := by
    simp [runImport, hv, hpost']
  refine ⟨?_, ?_, ?_⟩
  · rw [i1, hmid1]
    simp [List.length_append]
    omega
  · rw [i2, hmid2]
  · rw [i3, hmid3, List.filterMap_append]

/-- Interchange record carrying only a summary. -/
def plainVevent (s : String) : VEvent := ⟨some s, none, none, none, none, [], none, none⟩

/-- Create-call oracle that rejects the record titled B. -/
def rejectB : GoogleEvent → Except String Unit :=
  fun g => if g.summary = "B" then .error "Failed to create event: 400" else .ok ()

/-- Concrete instantiation of C8 on a three-record batch whose middle
record is rejected by the remote create call. -/
theorem c8_witness :
    (runImport "UTC" rejectB ([plainVevent "A"] ++ plainVevent "B" :: [plainVevent "C"])).1.imported + 1
        = ([plainVevent "A"] ++ plainVevent "B" :: [plainVevent "C"]).length ∧
    (runImport "UTC" rejectB ([plainVevent "A"] ++ plainVevent "B" :: [plainVevent "C"])).1.errors
        = [summaryKey (plainVevent "B") ++ ": " ++ "Failed to create event: 400"] ∧
    (runImport "UTC" rejectB ([plainVevent "A"] ++ plainVevent "B" :: [plainVevent "C"])).2
        = ([plainVevent "A"] ++ [plainVevent "C"]).filterMap
            fun r => (recordStep "UTC" rejectB r).toOption :=
  c8_import_isolation "UTC" rejectB [plainVevent "A"] [plainVevent "C"] (plainVevent "B")
    "Failed to create event: 400"
    (by intro r hr; rw [List.mem_singleton] at hr; subst hr; exact ⟨_, rfl⟩)
    (by intro r hr; rw [List.mem_singleton] at hr; subst hr; exact ⟨_, rfl⟩)
    (by decide)

theorem normTime_sec_ms (y mo d h mi : Int) :
    (normTime y mo d h mi 0 0).second = 0 ∧ (normTime y mo d h mi 0 0).ms = 0 := by
  unfold normTime normDate
  norm_num

theorem jsSetHours_sec_ms (dt : JSDate) (h mi : Int) :
    (jsSetHours dt h mi 0 0).second = 0 ∧ (jsSetHours dt h mi 0 0).ms = 0 := by
  unfold jsSetHours
  exact normTime_sec_ms _ _ _ _ _

theorem jsMkDate_sec_ms (y mo d h mi : Int) :
    (jsMkDate y mo d h mi).second = 0 ∧ (jsMkDate y mo d h mi).ms = 0 := by
  unfold jsMkDate
  exact normTime_sec_ms _ _ _ _ _

theorem jsSetHours_fields (dt : JSDate) (h mi : Int) (hh0 : 0 ≤ h) (hh : h < 24)
    (hm0 : 0 ≤ mi) (hm : mi < 60) :
    (jsSetHours dt h mi 0 0).hour = h ∧ (jsSetHours dt h mi 0 0).minute = mi := by
  have hmiDiv : mi / 60 = 0 := Int.ediv_eq_zero_of_lt hm0 hm
  have hmiMod : mi % 60 = mi := Int.emod_eq_of_lt hm0 hm
  have hhMod : h % 24 = h := Int.emod_eq_of_lt hh0 hh
  unfold jsSetHours normTime normDate
  norm_num [hmiDiv, hmiMod, hhMod]

theorem convert12_lt (h : Nat) (m : Option Mer) (hh : h < 24) : convert12 h m < 24 := by
  unfold convert12
  split_ifs <;> omega

theorem todayTimeEval_sec_ms (now : JSDate) (p : TodParts) :
    (todayTimeEval now p).second = 0 ∧ (todayTimeEval now p).ms = 0 := by
  unfold todayTimeEval
  exact jsSetHours_sec_ms _ _ _

theorem weekdayEval_sec_ms (now : JSDate) (p : WdParts) :
    (weekdayEval now p).second = 0 ∧ (weekdayEval now p).ms = 0 := by
  unfold weekdayEval
  exact jsSetHours_sec_ms _ _ _

theorem monthEval_sec_ms (now : JSDate) (p : MonParts) :
    (monthEval now p).second = 0 ∧ (monthEval now p).ms = 0 := by
  unfold monthEval
  cases p.hour <;> exact jsSetHours_sec_ms _ _ _

theorem slashEval_sec_ms (p : SlashParts) :
    (slashEval p).second = 0 ∧ (slashEval p).ms = 0 := by
  unfold slashEval
  exact jsMkDate_sec_ms _ _ _ _ _

theorem isoEval_sec_ms (p : IsoParts) :
    (isoEval p).second = 0 ∧ (isoEval p).ms = 0 := by
  unfold isoEval
  exact jsMkDate_sec_ms _ _ _ _ _

theorem bareTimeEval_sec_ms (now : JSDate) (p : HmParts) :
    (bareTimeEval now p).second = 0 ∧ (bareTimeEval now p).ms = 0 := by
  unfold bareTimeEval
  exact jsSetHours_sec_ms _ _ _

theorem ampmEval_sec_ms (now : JSDate) (p : AmpmParts) :
    (ampmEval now p).second = 0 ∧ (ampmEval now p).ms = 0 := by
  unfold ampmEval
  exact jsSetHours_sec_ms _ _ _

/-- Claim C3: in every meridiem-carrying match of the today/tomorrow,
weekday, month-name, and bare-time rules, the resulting time of day is the
12-hour conversion of the captured hour (pm adds 12 below 12, 12am becomes
0, anything else unchanged) with omitted minutes defaulting to 0; and
`parseDateTime "tomorrow 2pm"` is tomorrow's date at 14:00 local. -/
theorem c3_meridiem_conversion :
    (∀ (native : String → Option JSDate) (now : JSDate) (input : String)
        (p : TodParts) (mer : Mer),
        lowerTrim input ≠ "today" → lowerTrim input ≠ "tomorrow" →
        todayTimeMatch (lowerTrim input).data = some p → p.mer = some mer →
        p.hour < 24 → p.minute.getD 0 < 60 →
        ∃ r, parseDateTime native now input = .ok r ∧
          r.hour = (convert12 p.hour (some mer) : Int) ∧
          r.minute = (p.minute.getD 0 : Int)) ∧
    (∀ (native : String → Option JSDate) (now : JSDate) (input : String)
        (p : WdParts) (mer : Mer),
        lowerTrim input ≠ "today" → lowerTrim input ≠ "tomorrow" →
        todayTimeMatch (lowerTrim input).data = none →
        weekdayMatch (lowerTrim input).data = some p → p.mer = some mer →
        p.hour < 24 → p.minute.getD 0 < 60 →
        ∃ r, parseDateTime native now input = .ok r ∧
          r.hour = (convert12 p.hour (some mer) : Int) ∧
          r.minute = (p.minute.getD 0 : Int)) ∧
    (∀ (native : String → Option JSDate) (now : JSDate) (input : String)
        (p : MonParts) (hr : Nat) (mer : Mer),
        lowerTrim input ≠ "today" → lowerTrim input ≠ "tomorrow" →
        todayTimeMatch (lowerTrim input).data = none →
        weekdayMatch (lowerTrim input).data = none →
        monthMatch (lowerTrim input).data = some p → p.hour = some hr →
        p.mer = some mer → hr < 24 → p.minute.getD 0 < 60 →
        ∃ r, parseDateTime native now input = .ok r ∧
          r.hour = (convert12 hr (some mer) : Int) ∧
          r.minute = (p.minute.getD 0 : Int)) ∧
    (∀ (native : String → Option JSDate) (now : JSDate) (input : String)
        (p : AmpmParts),
        lowerTrim input ≠ "today" → lowerTrim input ≠ "tomorrow" →
        todayTimeMatch (lowerTrim input).data = none →
        weekdayMatch (lowerTrim input).data = none →
        monthMatch (lowerTrim input).data = none →
        slashDateMatch input.data = none →
        isoDateMatch input.data = none →
        bareTimeMatch input.data = none →
        ampmMatch (lowerTrim input).data = some p →
        p.hour < 24 → p.minute.getD 0 < 60 →
        ∃ r, parseDateTime native now input = .ok r ∧
          r.hour = (convert12 p.hour (some p.mer) : Int) ∧
          r.minute = (p.minute.getD 0 : Int)) ∧
    (∀ h : Nat, h < 12 → convert12 h (some Mer.pm) = h + 12) ∧
    (convert12 12 (some Mer.am) = 0) ∧
    (∀ h : Nat, ¬ h < 12 → convert12 h (some Mer.pm) = h) ∧
    (∀ h : Nat, h ≠ 12 → convert12 h (some Mer.am) = h) ∧
    (∀ native : String → Option JSDate,
        parseDateTime native ⟨2026, 0, 15, 9, 30, 45, 123⟩ "tomorrow 2pm" =
          .ok ⟨2026, 0, 16, 14, 0, 0, 0⟩) := by
  refine ⟨?_, ?_, ?_, ?_, ?_, by decide, ?_, ?_, fun native => rfl⟩
  · intro native now input p mer h1 h2 h3 hmer hlt hmn
    refine ⟨todayTimeEval now p, by simp [parseDateTime, h1, h2, h3], ?_⟩
    unfold todayTimeEval
    rw [hmer]
    exact jsSetHours_fields _ _ _ (Int.natCast_nonneg _)
      (by exact_mod_cast convert12_lt p.hour (some mer) hlt)
      (Int.natCast_nonneg _) (by exact_mod_cast hmn)
  · intro native now input p mer h1 h2 h3 h4 hmer hlt hmn
    refine ⟨weekdayEval now p, by simp [parseDateTime, h1, h2, h3, h4], ?_⟩
    unfold weekdayEval
    rw [hmer]
    exact jsSetHours_fields _ _ _ (Int.natCast_nonneg _)
      (by exact_mod_cast convert12_lt p.hour (some mer) hlt)
      (Int.natCast_nonneg _) (by exact_mod_cast hmn)
  · intro native now input p hr mer h1 h2 h3 h4 h5 hhr hmer hlt hmn
    refine ⟨monthEval now p, by simp [parseDateTime, h1, h2, h3, h4, h5], ?_⟩
    unfold monthEval
    rw [hhr, hmer]
    exact jsSetHours_fields _ _ _ (Int.natCast_nonneg _)
      (by exact_mod_cast convert12_lt hr (some mer) hlt)
      (Int.natCast_nonneg _) (by exact_mod_cast hmn)
  · intro native now input p h1 h2 h3 h4 h5 h6 h7 h8 h9 hlt hmn
    refine ⟨ampmEval now p,
      by simp [parseDateTime, h1, h2, h3, h4, h5, h6, h7, h8, h9], ?_⟩
    unfold ampmEval
    exact jsSetHours_fields _ _ _ (Int.natCast_nonneg _)
      (by exact_mod_cast convert12_lt p.hour (some p.mer) hlt)
      (Int.natCast_nonneg _) (by exact_mod_cast hmn)
  · intro h hlt
    unfold convert12
    rw [if_pos ⟨rfl, hlt⟩]
  · intro h hge
    unfold convert12
    rw [if_neg (by simp [hge]), if_neg (by simp)]
  · intro h hne
    unfold convert12
    rw [if_neg (by simp), if_neg (by simp [hne])]

/-- Concrete instantiation of C3's today/tomorrow rule with pm. -/
theorem c3_witness :
    ∃ r, parseDateTime (fun _ => none) ⟨2026, 0, 15, 9, 30, 45, 123⟩ "today 3pm" = .ok r ∧
      r.hour = (convert12 3 (some Mer.pm) : Int) ∧ r.minute = ((Option.getD none 0 : Nat) : Int) :=
  c3_meridiem_conversion.1 (fun _ => none) ⟨2026, 0, 15, 9, 30, 45, 123⟩ "today 3pm"
    ⟨false, 3, none, some Mer.pm⟩ Mer.pm (by decide) (by decide) (by decide) rfl
    (by decide) (by decide)

/-- Claim C9: `parseDateTime` raises the error carrying the original input
text (`Cannot parse date/time: <input>`) exactly when none of the explicit
grammar rules matches and the platform's generic parse also fails; in
every other case it returns an instant (the only error the function can
produce being that one). -/
theorem c9_cannot_parse_iff (native : String → Option JSDate) (now : JSDate)
    (input : String) :
    (parseDateTime native now input = .error ("Cannot parse date/time: " ++ input) ↔
      (lowerTrim input ≠ "today" ∧ lowerTrim input ≠ "tomorrow" ∧
       todayTimeMatch (lowerTrim input).data = none ∧
       weekdayMatch (lowerTrim input).data = none ∧
       monthMatch (lowerTrim input).data = none ∧
       slashDateMatch input.data = none ∧
       isoDateMatch input.data = none ∧
       bareTimeMatch input.data = none ∧
       ampmMatch (lowerTrim input).data = none ∧
       native input = none)) ∧
    ((∃ r, parseDateTime native now input = .ok r) ∨
      parseDateTime native now input = .error ("Cannot parse date/time: " ++ input)) := by
  constructor
  · simp only [parseDateTime]
    repeat' split
    all_goals simp_all
  · simp only [parseDateTime]
    repeat' split
    all_goals first
      | exact Or.inl ⟨_, rfl⟩
      | exact Or.inr rfl

/-- Claim C10: every input taken by one of the explicit time-determining
rules (today/tomorrow with time, weekday with time, month-name date with
or without time, `M/D/YYYY H:MM`, `YYYY-M-D H:MM`, bare `H:MM`, and
`H[:MM] am/pm`) produces an instant whose seconds and milliseconds are
zero; only the bare `today`/`tomorrow` rules and the generic fallback can
carry them over from "now". -/
theorem c10_explicit_rules_zero_seconds (native : String → Option JSDate) (now : JSDate)
    (input : String)
    (h1 : lowerTrim input ≠ "today") (h2 : lowerTrim input ≠ "tomorrow")
    (h3 : (todayTimeMatch (lowerTrim input).data).isSome ∨
          (weekdayMatch (lowerTrim input).data).isSome ∨
          (monthMatch (lowerTrim input).data).isSome ∨
          (slashDateMatch input.data).isSome ∨
          (isoDateMatch input.data).isSome ∨
          (bareTimeMatch input.data).isSome ∨
          (ampmMatch (lowerTrim input).data).isSome) :
    ∃ r, parseDateTime native now input = .ok r ∧ r.second = 0 ∧ r.ms = 0 := by
  simp only [parseDateTime, h1, h2]
  cases ht : todayTimeMatch (lowerTrim input).data with
  | some p =>
    simp only [ht]
    exact ⟨_, by simp, todayTimeEval_sec_ms now p⟩
  | none =>
  cases hw : weekdayMatch (lowerTrim input).data with
  | some p =>
    simp only [ht, hw]
    exact ⟨_, by simp, weekdayEval_sec_ms now p⟩
  | none =>
  cases hm : monthMatch (lowerTrim input).data with
  | some p =>
    simp only [ht, hw, hm]
    exact ⟨_, by simp, monthEval_sec_ms now p⟩
  | none =>
  cases hs : slashDateMatch input.data with
  | some p =>
    simp only [ht, hw, hm, hs]
    exact ⟨_, by simp, slashEval_sec_ms p⟩
  | none =>
  cases hi : isoDateMatch input.data with
  | some p =>
    simp only [ht, hw, hm, hs, hi]
    exact ⟨_, by simp, isoEval_sec_ms p⟩
  | none =>
  cases hb : bareTimeMatch input.data with
  | some p =>
    simp only [ht, hw, hm, hs, hi, hb]
    exact ⟨_, by simp, bareTimeEval_sec_ms now p⟩
  | none =>
  cases ha : ampmMatch (lowerTrim input).data with
  | some p =>
    simp only [ht, hw, hm, hs, hi, hb, ha]
    exact ⟨_, by simp, ampmEval_sec_ms now p⟩
  | none =>
    rcases h3 with h | h | h | h | h | h | h <;> simp_all

/-- Concrete instantiation of C10 via the bare `H:MM` rule: at 9:30:45.123,
parsing `13:30` keeps the date but zeroes seconds and milliseconds. -/
theorem c10_witness :
    ∃ r, parseDateTime (fun _ => none) ⟨2026, 0, 15, 9, 30, 45, 123⟩ "13:30" = .ok r ∧
      r.second = 0 ∧ r.ms = 0 :=
  c10_explicit_rules_zero_seconds (fun _ => none) ⟨2026, 0, 15, 9, 30, 45, 123⟩ "13:30"
    (by decide) (by decide)
    (Or.inr (Or.inr (Or.inr (Or.inr (Or.inr (Or.inl (by decide)))))))
